import Mathlib

/-!
Verification development for the cardano-launcher process-supervision core.

The definitions below are a shallow embedding of the TypeScript sources:

* `src/service.ts` — the per-process `Service` state machine created by
  `startService` (status enum, `doStart`, `doStop`, `onStopped`,
  `waitForStop`, `waitForExit`, `setStatus`, and the returned
  `start`/`stop`/`waitForExit` operations);
* `cardanoLauncher.ts` (the `Launcher` class) — the composition layer that
  owns the wallet and node services, wires the cross-failure propagation
  subscriptions, implements `start()` (readiness race) and `stop()`
  (joint shutdown with a one-shot `exited` latch);
* `cli.ts` — the `combineStatus` helper.

Node.js is single threaded and `EventEmitter.emit` runs its listeners
synchronously, so each operation of the source (the synchronous prefix of an
async function body, or an event callback together with the listeners it
triggers) is modelled as an atomic state-transformation function.  External
effects (spawning, closing stdin, sending signals) are recorded in an
`actions` trace; log calls are recorded by severity; `statusChanged`
emissions are recorded in an `events` trace.  Promises returned by
`stop`/`waitForExit` are modelled by `StopResult`: either already resolved
with a value, or pending until the next `Stopped` emission; the bookkeeping
fields `pendingWaiters`/`resolvedValues` record the pending `waitForStop`
listeners and the values they eventually receive.  A child process delivers
its termination notification (`exit` or `error` event) once, while the
service still holds the handle (`proc ≠ none`).
-/

namespace CardanoLauncher

/-- Severity levels of the `Logger` interface (`logging.ts`). -/
inductive Severity
  | debug
  | info
  | error
deriving DecidableEq, Repr

/-- States for a launched process (`ServiceStatus` in `service.ts`). -/
inductive ServiceStatus
  | NotStarted
  | Started
  | Stopping
  | Stopped
deriving DecidableEq, Repr

/-- Numeric value of the TypeScript enum member; the source compares
statuses with `>` (e.g. `stopWaiting` in `Launcher.start`). -/
def ServiceStatus.rank : ServiceStatus → Nat
  | .NotStarted => 0
  | .Started => 1
  | .Stopping => 2
  | .Stopped => 3

/-- Exit status of a service (`ServiceExitStatus` in `service.ts`).
`Error` objects are modelled by their message string. -/
structure ServiceExitStatus where
  exe : String
  code : Option Int
  signal : Option String
  err : Option String
deriving DecidableEq, Repr

/-- Command to run for the service (`StartService` in `service.ts`). -/
structure StartService where
  command : String
  args : List String
  supportsCleanShutdown : Bool
deriving DecidableEq, Repr

/-- The child process handle returned by `child_process.spawn`.  The
`stdio` option in `doStart` is `[supportsCleanShutdown ? 'pipe' : 'ignore',
'inherit', 'inherit']`, so the handle has a `stdin` stream exactly when the
service supports clean shutdown. -/
structure ChildProc where
  pid : Int
  stdinPipe : Bool
deriving DecidableEq, Repr

/-- External side effects performed on the operating system. -/
inductive Action
  | spawn (command : String) (args : List String)
  | closeStdin (pid : Int)
  | kill (pid : Int) (signal : String)
deriving DecidableEq, Repr

/-- The mutable closure state of one `startService` invocation, together
with observation traces (emitted `statusChanged` events, log severities,
OS actions) and promise bookkeeping for `waitForStop` listeners. -/
structure ServiceState where
  /-- `let status = ServiceStatus.NotStarted`. -/
  status : ServiceStatus := .NotStarted
  /-- `let cfg: StartService` — unassigned (`none`) until `start()` runs
  `cfg = await cfgP`. -/
  cfg : Option StartService := none
  /-- `let proc: ChildProcess|null = null`. -/
  proc : Option ChildProc := none
  /-- `let exitStatus: ServiceExitStatus|null`. -/
  exitStatus : Option ServiceExitStatus := none
  /-- `let killTimer: NodeJS.Timeout|null = null`; `some t` means a kill
  timeout of `t` seconds is pending. -/
  killTimer : Option Nat := none
  /-- Trace of `statusChanged` emissions. -/
  events : List ServiceStatus := []
  /-- Trace of logger calls by severity. -/
  logs : List Severity := []
  /-- Trace of OS side effects. -/
  actions : List Action := []
  /-- Number of pending `waitForStop` promises. -/
  pendingWaiters : Nat := 0
  /-- Values delivered to resolved `stop`/`waitForExit` promises, in
  resolution order. -/
  resolvedValues : List ServiceExitStatus := []
deriving DecidableEq, Repr

namespace Service

/-- `setStatus` of `service.ts`: logs, assigns `status`, and emits
`statusChanged`.  Emitting runs the registered listeners synchronously; the
`waitForStop` listeners resolve with the current `exitStatus` when the new
status is `Stopped` and `exitStatus` is non-null. -/
def setStatus (s : ServiceState) (newStatus : ServiceStatus) : ServiceState :=
  if newStatus = ServiceStatus.Stopped then
    match s.exitStatus with
    | some v =>
      { s with
        logs := s.logs ++ [Severity.debug]
        status := newStatus
        events := s.events ++ [newStatus]
        resolvedValues := s.resolvedValues ++ List.replicate s.pendingWaiters v
        pendingWaiters := 0 }
    | none =>
      { s with
        logs := s.logs ++ [Severity.debug]
        status := newStatus
        events := s.events ++ [newStatus] }
  else
    { s with
      logs := s.logs ++ [Severity.debug]
      status := newStatus
      events := s.events ++ [newStatus] }

/-- `doStart` of `service.ts`.  `spawnResult` is the outcome of the
`child_process.spawn` call itself: `.ok pid` means a handle was created
(spawn errors such as ENOENT are reported later through the handle's
`error` event, see `procError`); `.error e` means `spawn` threw
synchronously, in which case the error is logged and rethrown. -/
def doStart (cfg : StartService) (spawnResult : Except String Int)
    (s : ServiceState) : ServiceState × Except String Int :=
  let s := { s with logs := s.logs ++ [Severity.info] }
  match spawnResult with
  | .error e => ({ s with logs := s.logs ++ [Severity.error] }, .error e)
  | .ok pid =>
    let s :=
      { s with
        proc := some ⟨pid, cfg.supportsCleanShutdown⟩
        actions := s.actions ++ [Action.spawn cfg.command cfg.args] }
    (setStatus s ServiceStatus.Started, .ok pid)

/-- The cooperative or signal-based shutdown performed by `doStop` on a
running child: `if (cfg.supportsCleanShutdown && proc.stdin)
proc.stdin.end(); else proc.kill("SIGTERM")`. -/
def shutdownAction (cfg : StartService) (p : ChildProc) : Action :=
  if cfg.supportsCleanShutdown && p.stdinPipe then Action.closeStdin p.pid
  else Action.kill p.pid "SIGTERM"

/-- `doStop` of `service.ts`: transition to `Stopping`, then either close
the child's stdin (clean-shutdown method) or send `SIGTERM`, and arm the
kill timeout. -/
def doStop (cfg : StartService) (timeoutSeconds : Nat) (s : ServiceState) :
    ServiceState :=
  let s1 := setStatus { s with logs := s.logs ++ [Severity.info] }
    ServiceStatus.Stopping
  let s2 :=
    match s1.proc with
    | some p => { s1 with actions := s1.actions ++ [shutdownAction cfg p] }
    | none => s1
  { s2 with killTimer := some timeoutSeconds }

/-- `onStopped` of `service.ts`: finalize `exitStatus`, cancel the kill
timer, drop the process handle, and transition to `Stopped`.  Reads the
outer `cfg` variable, which is always assigned by the time a process event
can fire. -/
def onStopped (code : Option Int) (signal : Option String)
    (err : Option String) (s : ServiceState) : ServiceState :=
  match s.cfg with
  | none => s
  | some cfg =>
    let s :=
      { s with
        exitStatus := some ⟨cfg.command, code, signal, err⟩
        logs := s.logs ++ [Severity.debug]
        killTimer := none
        proc := none }
    setStatus s ServiceStatus.Stopped

/-- The `exit` event handler installed on the spawned child in `doStart`:
`proc.on("exit", (code, signal) => onStopped(code, signal))`.  The
notification is delivered while the service still holds the handle. -/
def procExit (code : Option Int) (signal : Option String)
    (s : ServiceState) : ServiceState :=
  match s.proc with
  | some _ => onStopped code signal none s
  | none => s

/-- The `error` event handler installed on the spawned child in `doStart`:
logs at error level, then `onStopped(null, null, err)`. -/
def procError (err : String) (s : ServiceState) : ServiceState :=
  match s.proc with
  | some _ => onStopped none none (some err) { s with logs := s.logs ++ [Severity.error] }
  | none => s

/-- Elapse of the `setTimeout` armed by `doStop`: if the process is still
running, log and send the non-ignorable `SIGKILL`. -/
def killTimerElapse (s : ServiceState) : ServiceState :=
  match s.killTimer with
  | none => s
  | some _ =>
    let s := { s with killTimer := none }
    match s.proc with
    | some p =>
      { s with
        logs := s.logs ++ [Severity.info]
        actions := s.actions ++ [Action.kill p.pid "SIGKILL"] }
    | none => s

/-- Result of a `stop()`/`waitForExit()` call: either a promise resolved
immediately with a value, or one pending until the next `Stopped` emission
(the `waitForStop` listener). -/
inductive StopResult
  | now (v : ServiceExitStatus)
  | pending
deriving DecidableEq, Repr

/-- `waitForExit` of `service.ts`.  Its first line evaluates
`cfg.command` to build `defaultExitStatus`; when the service was never
started, `cfg` is still unassigned and this property access throws a
`TypeError`, modelled by `.error`.  Otherwise the behaviour depends on the
status: `NotStarted` assigns `status` directly (without `setStatus`, so no
`statusChanged` event) and resolves with the null-filled status; `Started`
and `Stopping` register a `waitForStop` listener; `Stopped` resolves with
the cached `exitStatus`. -/
def waitForExit (s : ServiceState) : ServiceState × Except String StopResult :=
  match s.cfg with
  | none => (s, .error "TypeError: cannot read command of undefined cfg")
  | some cfg =>
    let dflt : ServiceExitStatus := ⟨cfg.command, none, none, none⟩
    match s.status with
    | .NotStarted =>
      ({ s with
          status := ServiceStatus.Stopped
          exitStatus := some dflt
          resolvedValues := s.resolvedValues ++ [dflt] },
        .ok (StopResult.now dflt))
    | .Started =>
      ({ s with
          logs := s.logs ++ [Severity.debug]
          pendingWaiters := s.pendingWaiters + 1 },
        .ok StopResult.pending)
    | .Stopping =>
      ({ s with
          logs := s.logs ++ [Severity.debug]
          pendingWaiters := s.pendingWaiters + 1 },
        .ok StopResult.pending)
    | .Stopped =>
      let v := s.exitStatus.getD dflt
      ({ s with resolvedValues := s.resolvedValues ++ [v] },
        .ok (StopResult.now v))

/-- The `start` operation of the returned `Service` object.  `cfgv` is the
value that `cfg = await cfgP` resolves to, and `spawnResult` the outcome of
the `spawn` call (see `doStart`).  Already-started services return the
cached pid; stopping or stopped services return the `-1` sentinel. -/
def start (cfgv : StartService) (spawnResult : Except String Int)
    (s : ServiceState) : ServiceState × Except String Int :=
  match s.status with
  | .NotStarted => doStart cfgv spawnResult { s with cfg := some cfgv }
  | .Started =>
    ({ s with logs := s.logs ++ [Severity.info] },
      .ok (match s.proc with | some p => p.pid | none => -1))
  | .Stopping => ({ s with logs := s.logs ++ [Severity.info] }, .ok (-1))
  | .Stopped => ({ s with logs := s.logs ++ [Severity.info] }, .ok (-1))

/-- The `stop` operation of the returned `Service` object (default timeout
60 seconds): only a `Started` service runs `doStop`; every caller then gets
the `waitForExit()` promise. -/
def stop (timeoutSeconds : Nat) (s : ServiceState) :
    ServiceState × Except String StopResult :=
  let s1 :=
    match s.status with
    | .NotStarted => { s with logs := s.logs ++ [Severity.info] }
    | .Started =>
      match s.cfg with
      | some cfg => doStop cfg timeoutSeconds s
      | none => s
    | .Stopping => { s with logs := s.logs ++ [Severity.info] }
    | .Stopped => { s with logs := s.logs ++ [Severity.info] }
  waitForExit s1

/-- One atomic interaction with a service: a public operation or an event
from the environment (process termination, timer elapse). -/
inductive Step
  | startOp (cfgv : StartService) (spawnResult : Except String Int)
  | stopOp (timeoutSeconds : Nat)
  | waitOp
  | exitEv (code : Option Int) (signal : Option String)
  | errorEv (err : String)
  | timerEv
deriving Repr

/-- Apply one step to the service state (return values discarded). -/
def applyStep : Step → ServiceState → ServiceState
  | .startOp c r, s => (start c r s).1
  | .stopOp t, s => (stop t s).1
  | .waitOp, s => (waitForExit s).1
  | .exitEv c g, s => procExit c g s
  | .errorEv e, s => procError e s
  | .timerEv, s => killTimerElapse s

/-- Run a sequence of steps. -/
def run (steps : List Step) (s : ServiceState) : ServiceState :=
  steps.foldl (fun s σ => applyStep σ s) s

end Service

/-- The result after the launched wallet backend has finished
(`ExitStatus` of `cardanoLauncher.ts`). -/
structure ExitStatus where
  wallet : ServiceExitStatus
  node : ServiceExitStatus
deriving DecidableEq, Repr

/-- Settlement state of the promise returned by `Launcher.start()`. -/
inductive StartOutcome
  | pending
  | resolved (baseUrl : String)
  | rejected (status : ExitStatus)
deriving DecidableEq, Repr

/-- The `baseUrl` built by the `V2Api` constructor (no TLS configuration,
so the protocol is `http:`). -/
def v2BaseUrl (port : Nat) : String :=
  "http://127.0.0.1:" ++ toString port ++ "/v2/"

/-- State of one `Launcher` instance: the two owned services, the
`exited` latch, the `walletBackend.events` emissions, the pending
`Launcher.stop()` joins and their resolutions, and the settlement state of
the `Launcher.start()` promise. -/
structure LauncherState where
  walletService : ServiceState := {}
  nodeService : ServiceState := {}
  /-- Wallet API server port (resolved from the wallet start service). -/
  apiPort : Nat := 0
  /-- `private exited = false` — the one-shot latch of `Launcher.stop`. -/
  exited : Bool := false
  /-- Trace of `walletBackend.events.emit('exit', …)` payloads. -/
  exitEvents : List ExitStatus := []
  /-- Number of `walletBackend.events.emit('ready', …)` emissions. -/
  readyEvents : Nat := 0
  /-- Number of `Launcher.stop()` calls whose `Promise.all` join has not
  completed yet. -/
  stopPending : Nat := 0
  /-- Values with which completed `Launcher.stop()` promises resolved. -/
  stopResolutions : List ExitStatus := []
  /-- Whether `Launcher.start()` registered its `ready`/`exit` listeners. -/
  startRegistered : Bool := false
  startOutcome : StartOutcome := .pending
deriving DecidableEq, Repr

namespace Launcher

/-- `Launcher.stop`: synchronously invoke `walletService.stop` and
`nodeService.stop` (in the order of the `Promise.all` array); if either
call throws synchronously the joined promise rejects and no completion is
pending, otherwise one more join is pending. -/
def stopCall (t : Nat) (L : LauncherState) : LauncherState :=
  let wr := Service.stop t L.walletService
  let nr := Service.stop t L.nodeService
  let L1 := { L with walletService := wr.1, nodeService := nr.1 }
  match wr.2, nr.2 with
  | .ok _, .ok _ => { L1 with stopPending := L1.stopPending + 1 }
  | _, _ => L1

/-- `walletBackend.events.emit('exit', status)`: record the emission and
run the listeners, which are the rejection handler registered by
`Launcher.start()` (if any). -/
def emitExit (st : ExitStatus) (L : LauncherState) : LauncherState :=
  let L1 := { L with exitEvents := L.exitEvents ++ [st] }
  if L1.startRegistered ∧ L1.startOutcome = StartOutcome.pending then
    { L1 with startOutcome := StartOutcome.rejected st }
  else L1

/-- Completion of one pending `Launcher.stop()` join: it runs once both
service `stop` promises have resolved, i.e. both services are `Stopped`
(their resolution values are then the cached `exitStatus` of each service,
see `Service.waitForExit`).  The `.then` callback builds
`status = \x7b wallet, node \x7d`, emits `exit` exactly once thanks to the
`exited` latch, and resolves the `Launcher.stop()` promise with `status`. -/
def stopComplete (L : LauncherState) : LauncherState :=
  if L.stopPending = 0 then L
  else if L.walletService.status = ServiceStatus.Stopped ∧
      L.nodeService.status = ServiceStatus.Stopped then
    match L.walletService.exitStatus, L.nodeService.exitStatus with
    | some w, some n =>
      let st : ExitStatus := ⟨w, n⟩
      let L1 :=
        { L with
          stopPending := L.stopPending - 1
          stopResolutions := L.stopResolutions ++ [st] }
      if L1.exited then L1 else emitExit st { L1 with exited := true }
    | _, _ => L
  else L

/-- The subscriptions installed by the `Launcher` constructor: whenever a
service's `statusChanged` event fires with `Stopped`, call `this.stop()`
(with the default 60-second timeout). -/
def serviceStoppedHandler (L : LauncherState) : LauncherState :=
  stopCall 60 L

/-- Delivery of the wallet child's `exit` event: the service runs
`onStopped`, whose `Stopped` emission synchronously triggers the
constructor subscription.  Nothing is emitted (and no handler runs) unless
the wallet actually holds a spawned process handle. -/
def walletProcExit (c : Option Int) (g : Option String) (L : LauncherState) :
    LauncherState :=
  match L.walletService.proc, L.walletService.cfg with
  | some _, some _ =>
    serviceStoppedHandler
      { L with walletService := Service.procExit c g L.walletService }
  | _, _ => L

/-- Delivery of the wallet child's `error` event (see `walletProcExit`). -/
def walletProcError (e : String) (L : LauncherState) : LauncherState :=
  match L.walletService.proc, L.walletService.cfg with
  | some _, some _ =>
    serviceStoppedHandler
      { L with walletService := Service.procError e L.walletService }
  | _, _ => L

/-- Delivery of the node child's `exit` event (see `walletProcExit`). -/
def nodeProcExit (c : Option Int) (g : Option String) (L : LauncherState) :
    LauncherState :=
  match L.nodeService.proc, L.nodeService.cfg with
  | some _, some _ =>
    serviceStoppedHandler
      { L with nodeService := Service.procExit c g L.nodeService }
  | _, _ => L

/-- Delivery of the node child's `error` event (see `walletProcExit`). -/
def nodeProcError (e : String) (L : LauncherState) : LauncherState :=
  match L.nodeService.proc, L.nodeService.cfg with
  | some _, some _ =>
    serviceStoppedHandler
      { L with nodeService := Service.procError e L.nodeService }
  | _, _ => L

/-- `Launcher.start`: start the node service then the wallet service
(spawn-promise rejections are ignored), begin readiness polling, and
register the `ready` → resolve and `exit` → reject(BackendExitedError)
listeners on `walletBackend.events`. -/
def startCall (wcfg ncfg : StartService) (wspawn nspawn : Except String Int)
    (L : LauncherState) : LauncherState :=
  let L1 := { L with nodeService := (Service.start ncfg nspawn L.nodeService).1 }
  let L2 := { L1 with walletService := (Service.start wcfg wspawn L1.walletService).1 }
  { L2 with startRegistered := true }

/-- One `waitForApi` polling tick on which the wallet API port accepted
the TCP connection.  The poll loop only runs while `stopWaiting()` is
false, i.e. neither service status is above `Started`; on success it emits
`ready` with the `V2Api` connection info, which resolves the
`Launcher.start()` promise. -/
def pollReady (L : LauncherState) : LauncherState :=
  if L.nodeService.status.rank ≤ ServiceStatus.rank ServiceStatus.Started ∧
      L.walletService.status.rank ≤ ServiceStatus.rank ServiceStatus.Started then
    let L1 := { L with readyEvents := L.readyEvents + 1 }
    if L1.startRegistered ∧ L1.startOutcome = StartOutcome.pending then
      { L1 with startOutcome := StartOutcome.resolved (v2BaseUrl L1.apiPort) }
    else L1
  else L

/-- The `installSignalHandlers` handler for SIGINT/SIGTERM/SIGHUP/SIGBREAK:
stop both services with timeout 0 (no join, rejections logged). -/
def signalHandler (L : LauncherState) : LauncherState :=
  { L with
    walletService := (Service.stop 0 L.walletService).1
    nodeService := (Service.stop 0 L.nodeService).1 }

/-- One atomic interaction with a launcher: a public operation, a join
completion, a poller tick, a POSIX signal, or an event from one of the two
child processes. -/
inductive LStep
  | startL (wcfg ncfg : StartService) (wspawn nspawn : Except String Int)
  | stopL (t : Nat)
  | complete
  | ready
  | signal
  | wExit (c : Option Int) (g : Option String)
  | wError (e : String)
  | nExit (c : Option Int) (g : Option String)
  | nError (e : String)
  | wTimer
  | nTimer
deriving Repr

/-- Apply one launcher step. -/
def applyLStep : LStep → LauncherState → LauncherState
  | .startL wcfg ncfg wspawn nspawn, L => startCall wcfg ncfg wspawn nspawn L
  | .stopL t, L => stopCall t L
  | .complete, L => stopComplete L
  | .ready, L => pollReady L
  | .signal, L => signalHandler L
  | .wExit c g, L => walletProcExit c g L
  | .wError e, L => walletProcError e L
  | .nExit c g, L => nodeProcExit c g L
  | .nError e, L => nodeProcError e L
  | .wTimer, L => { L with walletService := Service.killTimerElapse L.walletService }
  | .nTimer, L => { L with nodeService := Service.killTimerElapse L.nodeService }

/-- Run a sequence of launcher steps. -/
def runL (steps : List LStep) (L : LauncherState) : LauncherState :=
  steps.foldl (fun L σ => applyLStep σ L) L

/-- A freshly constructed `Launcher` (services not started, latch not
set). -/
def initLauncher (port : Nat) : LauncherState := { apiPort := port }

end Launcher

/-- N successive `stop(t)` calls on a service (earliest call first). -/
def stopN (t : Nat) : Nat → ServiceState → ServiceState
  | 0, s => s
  | n + 1, s => stopN t n (Service.stop t s).1

/-- Example wallet start service (as built by `walletExe`). -/
def demoWalletCfg : StartService :=
  ⟨"cardano-wallet-shelley", ["serve", "--shutdown-handler"], true⟩

/-- Example node start service (as built by `nodeExe`). -/
def demoNodeCfg : StartService := ⟨"cardano-node", ["run"], false⟩

/-- Structural invariant of a service: the process handle exists only
while the process may be running (it is null before the first spawn and is
nulled by `onStopped`). -/
def SInv (s : ServiceState) : Prop :=
  (s.status = ServiceStatus.NotStarted → s.proc = none) ∧
  (s.status = ServiceStatus.Stopped → s.proc = none)

/-- Invariant of a launcher run: both services satisfy `SInv`, the `exit`
event has been emitted iff the latch is set (and then only once), and
every resolved `Launcher.stop()` promise carries exactly the cached exit
statuses of the two (by then stopped) services. -/
def LInv (L : LauncherState) : Prop :=
  SInv L.walletService ∧ SInv L.nodeService ∧
  (L.exited = false → L.exitEvents = []) ∧
  L.exitEvents.length ≤ 1 ∧
  (∀ st ∈ L.stopResolutions,
    L.walletService.status = ServiceStatus.Stopped ∧
    L.nodeService.status = ServiceStatus.Stopped ∧
    some st.wallet = L.walletService.exitStatus ∧
    some st.node = L.nodeService.exitStatus)

/-- The `_.reduce(statuses, (res, status) => res === null ? f(status) :
res, null)` pattern used twice by `combineStatus` in `cli.ts`. -/
def reduceFirst {β : Type} (f : ServiceExitStatus → Option β)
    (statuses : List ServiceExitStatus) : Option β :=
  statuses.foldl (fun res st => match res with | none => f st | some b => some b)
    none

/-- `combineStatus` of `cli.ts`: fold out the first non-null exit code and
the first non-null signal, then `code === null ? (signal === null ? 0 :
127) : code`. -/
def combineStatus (statuses : List ServiceExitStatus) : Int :=
  let code : Option Int := reduceFirst (fun st => st.code) statuses
  let signal : Option String := reduceFirst (fun st => st.signal) statuses
  match code with
  | none => match signal with | none => 0 | some _ => 127
  | some c => c

end CardanoLauncher

namespace CardanoLauncher

/-- Helper: the fold used by `combineStatus` returns the head of the list
of non-null projections. -/
theorem reduceFirst_eq_head {β : Type} (f : ServiceExitStatus → Option β)
    (l : List ServiceExitStatus) :
    reduceFirst f l = (l.filterMap f).head? := by
  have general : ∀ (l : List ServiceExitStatus) (acc : Option β),
      l.foldl (fun res st => match res with | none => f st | some b => some b)
          acc =
        match acc with
        | some b => some b
        | none => (l.filterMap f).head? := by
    intro l
    induction l with
    | nil => intro acc; cases acc <;> simp [List.foldl]
    | cons x xs ih =>
      intro acc
      cases acc with
      | some b =>
        simp only [List.foldl]
        rw [ih]
      | none =>
        simp only [List.foldl]
        rw [ih]
        cases hfx : f x <;> simp [List.filterMap_cons, hfx]
  simpa [reduceFirst] using general l none

/-- C10: `combineStatus`, applied to any list of `ServiceExitStatus`
values, returns the first non-null exit code in list order when some status
has a non-null code; otherwise 127 if some status has a non-null
terminating signal; otherwise 0. -/
theorem combineStatus_spec (statuses : List ServiceExitStatus) :
    combineStatus statuses =
      match (statuses.filterMap (fun st => st.code)).head? with
      | some c => c
      | none =>
        if statuses.any (fun st => st.signal.isSome) then 127 else 0 := by
  unfold combineStatus
  rw [reduceFirst_eq_head (fun st => st.code),
    reduceFirst_eq_head (fun st => st.signal)]
  cases hc : (statuses.filterMap (fun st => st.code)).head? with
  | some c => simp
  | none =>
    simp only []
    cases hs : (statuses.filterMap (fun st => st.signal)).head? with
    | some v =>
      have : statuses.any (fun st => st.signal.isSome) = true := by
        have hmem : v ∈ statuses.filterMap (fun st => st.signal) :=
          List.mem_of_mem_head? hs
        rcases List.mem_filterMap.mp hmem with ⟨st, hst, hv⟩
        exact List.any_eq_true.mpr ⟨st, hst, by simp [hv]⟩
      simp [this]
    | none =>
      have : statuses.any (fun st => st.signal.isSome) = false := by
        rw [List.any_eq_false]
        intro st hst
        cases hsig : st.signal with
        | none => simp
        | some v =>
          have hmem : v ∈ statuses.filterMap (fun st => st.signal) :=
            List.mem_filterMap.mpr ⟨st, hst, hsig⟩
          have h := List.head?_eq_none_iff.mp hs
          simp [h] at hmem
      simp [this]

end CardanoLauncher

namespace CardanoLauncher

namespace Service

/-- Equation for `setStatus` at a non-`Stopped` status: no waiter is
resolved. -/
theorem setStatus_eq_of_ne (s : ServiceState) (ns : ServiceStatus)
    (h : ns ≠ ServiceStatus.Stopped) :
    setStatus s ns =
      { s with
        logs := s.logs ++ [Severity.debug]
        status := ns
        events := s.events ++ [ns] } := by
  unfold setStatus
  rw [if_neg h]

/-- Equation for `setStatus` at `Stopped` when `exitStatus` is set: all
pending `waitForStop` listeners resolve with the cached value. -/
theorem setStatus_stopped_eq (s : ServiceState) (v : ServiceExitStatus)
    (h : s.exitStatus = some v) :
    setStatus s ServiceStatus.Stopped =
      { s with
        logs := s.logs ++ [Severity.debug]
        status := ServiceStatus.Stopped
        events := s.events ++ [ServiceStatus.Stopped]
        resolvedValues := s.resolvedValues ++ List.replicate s.pendingWaiters v
        pendingWaiters := 0 } := by
  unfold setStatus
  rw [if_pos rfl, h]

@[simp] theorem setStatus_status (s : ServiceState) (ns : ServiceStatus) :
    (setStatus s ns).status = ns := by
  unfold setStatus
  split
  · split <;> rfl
  · rfl

@[simp] theorem setStatus_cfg (s : ServiceState) (ns : ServiceStatus) :
    (setStatus s ns).cfg = s.cfg := by
  unfold setStatus
  split
  · split <;> rfl
  · rfl

@[simp] theorem setStatus_proc (s : ServiceState) (ns : ServiceStatus) :
    (setStatus s ns).proc = s.proc := by
  unfold setStatus
  split
  · split <;> rfl
  · rfl

@[simp] theorem setStatus_exitStatus (s : ServiceState) (ns : ServiceStatus) :
    (setStatus s ns).exitStatus = s.exitStatus := by
  unfold setStatus
  split
  · split <;> rfl
  · rfl

@[simp] theorem setStatus_killTimer (s : ServiceState) (ns : ServiceStatus) :
    (setStatus s ns).killTimer = s.killTimer := by
  unfold setStatus
  split
  · split <;> rfl
  · rfl

@[simp] theorem setStatus_actions (s : ServiceState) (ns : ServiceStatus) :
    (setStatus s ns).actions = s.actions := by
  unfold setStatus
  split
  · split <;> rfl
  · rfl

@[simp] theorem setStatus_events (s : ServiceState) (ns : ServiceStatus) :
    (setStatus s ns).events = s.events ++ [ns] := by
  unfold setStatus
  split
  · split <;> rfl
  · rfl

@[simp] theorem setStatus_logs (s : ServiceState) (ns : ServiceStatus) :
    (setStatus s ns).logs = s.logs ++ [Severity.debug] := by
  unfold setStatus
  split
  · split <;> rfl
  · rfl

/-- Status after a `start` call. -/
theorem start_status (c : StartService) (r : Except String Int)
    (s : ServiceState) :
    ((start c r s).1).status =
      match s.status, r with
      | .NotStarted, .ok _ => ServiceStatus.Started
      | st, _ => st := by
  cases hst : s.status <;> cases r <;>
    simp [start, doStart, hst]

/-- Status after a `waitForExit` call. -/
theorem waitForExit_status (s : ServiceState) :
    ((waitForExit s).1).status =
      match s.cfg, s.status with
      | none, st => st
      | some _, .NotStarted => ServiceStatus.Stopped
      | some _, st => st := by
  cases hc : s.cfg <;> cases hst : s.status <;>
    simp [waitForExit, hst, hc]

/-- Equation for `doStop`. -/
theorem doStop_eq (c : StartService) (t : Nat) (s : ServiceState) :
    doStop c t s =
      { s with
        logs := s.logs ++ [Severity.info, Severity.debug]
        status := ServiceStatus.Stopping
        events := s.events ++ [ServiceStatus.Stopping]
        actions := s.actions ++
          (match s.proc with
            | some p => [shutdownAction c p]
            | none => [])
        killTimer := some t } := by
  have hne : ServiceStatus.Stopping ≠ ServiceStatus.Stopped := by decide
  cases hp : s.proc <;>
    simp [doStop, setStatus_eq_of_ne _ _ hne, hp]

/-- Status after a `stop` call. -/
theorem stop_status (t : Nat) (s : ServiceState) :
    ((stop t s).1).status =
      match s.cfg, s.status with
      | none, st => st
      | some _, .NotStarted => ServiceStatus.Stopped
      | some _, .Started => ServiceStatus.Stopping
      | some _, st => st := by
  cases hc : s.cfg <;> cases hst : s.status <;>
    simp [stop, waitForExit, doStop_eq, hst, hc]

/-- Status after delivery of the child's `exit` event. -/
theorem procExit_status (c : Option Int) (g : Option String)
    (s : ServiceState) :
    (procExit c g s).status =
      match s.proc, s.cfg with
      | some _, some _ => ServiceStatus.Stopped
      | _, _ => s.status := by
  cases hp : s.proc <;> cases hc : s.cfg <;>
    simp [procExit, onStopped, hp, hc]

/-- Status after delivery of the child's `error` event. -/
theorem procError_status (e : String) (s : ServiceState) :
    (procError e s).status =
      match s.proc, s.cfg with
      | some _, some _ => ServiceStatus.Stopped
      | _, _ => s.status := by
  cases hp : s.proc <;> cases hc : s.cfg <;>
    simp [procError, onStopped, hp, hc]

/-- The kill timeout elapsing never changes the status. -/
@[simp] theorem killTimerElapse_status (s : ServiceState) :
    (killTimerElapse s).status = s.status := by
  cases hk : s.killTimer <;> cases hp : s.proc <;>
    simp [killTimerElapse, hk, hp]

/-- One step never decreases the status rank. -/
theorem applyStep_rank_le (σ : Step) (s : ServiceState) :
    s.status.rank ≤ (applyStep σ s).status.rank := by
  cases σ with
  | startOp c r =>
    show s.status.rank ≤ ((start c r s).1).status.rank
    rw [start_status]
    cases hst : s.status <;> cases r <;> simp [ServiceStatus.rank]
  | stopOp t =>
    show s.status.rank ≤ ((stop t s).1).status.rank
    rw [stop_status]
    cases hc : s.cfg <;> cases hst : s.status <;> simp [ServiceStatus.rank]
  | waitOp =>
    show s.status.rank ≤ ((waitForExit s).1).status.rank
    rw [waitForExit_status]
    cases hc : s.cfg <;> cases hst : s.status <;> simp [ServiceStatus.rank]
  | exitEv c g =>
    show s.status.rank ≤ (procExit c g s).status.rank
    rw [procExit_status]
    cases hp : s.proc <;> cases hc : s.cfg <;> cases hst : s.status <;>
      simp [ServiceStatus.rank]
  | errorEv e =>
    show s.status.rank ≤ (procError e s).status.rank
    rw [procError_status]
    cases hp : s.proc <;> cases hc : s.cfg <;> cases hst : s.status <;>
      simp [ServiceStatus.rank]
  | timerEv =>
    show s.status.rank ≤ (killTimerElapse s).status.rank
    rw [killTimerElapse_status]

/-- One step never leaves `Stopped`. -/
theorem applyStep_stopped (σ : Step) (s : ServiceState)
    (h : s.status = ServiceStatus.Stopped) :
    (applyStep σ s).status = ServiceStatus.Stopped := by
  cases σ with
  | startOp c r =>
    show ((start c r s).1).status = ServiceStatus.Stopped
    rw [start_status, h]
  | stopOp t =>
    show ((stop t s).1).status = ServiceStatus.Stopped
    rw [stop_status, h]
    cases hc : s.cfg <;> rfl
  | waitOp =>
    show ((waitForExit s).1).status = ServiceStatus.Stopped
    rw [waitForExit_status, h]
    cases hc : s.cfg <;> rfl
  | exitEv c g =>
    show (procExit c g s).status = ServiceStatus.Stopped
    rw [procExit_status]
    cases hp : s.proc <;> cases hc : s.cfg <;> simp [h]
  | errorEv e =>
    show (procError e s).status = ServiceStatus.Stopped
    rw [procError_status]
    cases hp : s.proc <;> cases hc : s.cfg <;> simp [h]
  | timerEv =>
    show (killTimerElapse s).status = ServiceStatus.Stopped
    rw [killTimerElapse_status, h]

end Service

/-- C9: for every Service and every sequence of operations and process
events, the status is monotonically non-decreasing along the order
NotStarted, Started, Stopping, Stopped, and Stopped is terminal: once the
status is Stopped, no operation or event changes it. -/
theorem service_status_monotone_stopped_terminal (s : ServiceState)
    (steps : List Service.Step) :
    s.status.rank ≤ (Service.run steps s).status.rank ∧
      (s.status = ServiceStatus.Stopped →
        (Service.run steps s).status = ServiceStatus.Stopped) := by
  induction steps generalizing s with
  | nil => exact ⟨le_refl _, fun h => h⟩
  | cons σ rest ih =>
    have hstep := Service.applyStep_rank_le σ s
    have hrest := ih (Service.applyStep σ s)
    constructor
    · exact le_trans hstep hrest.1
    · intro h
      exact hrest.2 (Service.applyStep_stopped σ s h)

/-- Witness for C9 at a concrete stopped state and step sequence. -/
theorem service_status_monotone_stopped_terminal_app :
    ({ status := ServiceStatus.Stopped, cfg := some demoNodeCfg } :
        ServiceState).status.rank ≤
      (Service.run [Service.Step.stopOp 2, Service.Step.timerEv]
        { status := ServiceStatus.Stopped, cfg := some demoNodeCfg }).status.rank ∧
    (Service.run [Service.Step.stopOp 2, Service.Step.timerEv]
        { status := ServiceStatus.Stopped, cfg := some demoNodeCfg }).status =
      ServiceStatus.Stopped := by
  refine ⟨(service_status_monotone_stopped_terminal _ _).1, ?_⟩
  exact (service_status_monotone_stopped_terminal
    { status := ServiceStatus.Stopped, cfg := some demoNodeCfg }
    [Service.Step.stopOp 2, Service.Step.timerEv]).2 rfl

end CardanoLauncher

namespace CardanoLauncher

namespace Service

/-- Equation for `start` on a fresh service whose spawn call returns a
handle. -/
theorem start_notStarted_ok_eq (c : StartService) (pid : Int)
    (s : ServiceState) (h : s.status = ServiceStatus.NotStarted) :
    start c (Except.ok pid) s =
      ({ s with
          cfg := some c
          logs := s.logs ++ [Severity.info, Severity.debug]
          status := ServiceStatus.Started
          events := s.events ++ [ServiceStatus.Started]
          proc := some ⟨pid, c.supportsCleanShutdown⟩
          actions := s.actions ++ [Action.spawn c.command c.args] },
        Except.ok pid) := by
  have hne : ServiceStatus.Started ≠ ServiceStatus.Stopped := by decide
  simp [start, doStart, h, setStatus_eq_of_ne _ _ hne]

/-- Equation for `start` on a fresh service whose spawn call throws
synchronously: the error is logged and rethrown, nothing else changes. -/
theorem start_notStarted_err_eq (c : StartService) (e : String)
    (s : ServiceState) (h : s.status = ServiceStatus.NotStarted) :
    start c (Except.error e) s =
      ({ s with
          cfg := some c
          logs := s.logs ++ [Severity.info, Severity.error] },
        Except.error e) := by
  simp [start, doStart, h]

/-- Equation for `start` on an already started service: the cached pid is
returned with no side effect but a log line. -/
theorem start_started_eq (c : StartService) (r : Except String Int)
    (s : ServiceState) (h : s.status = ServiceStatus.Started) :
    start c r s =
      ({ s with logs := s.logs ++ [Severity.info] },
        Except.ok (match s.proc with | some p => p.pid | none => -1)) := by
  simp [start, h]

/-- Equation for `start` on a stopping service: the `-1` sentinel. -/
theorem start_stopping_eq (c : StartService) (r : Except String Int)
    (s : ServiceState) (h : s.status = ServiceStatus.Stopping) :
    start c r s =
      ({ s with logs := s.logs ++ [Severity.info] }, Except.ok (-1)) := by
  simp [start, h]

/-- Equation for `start` on a stopped service: the `-1` sentinel. -/
theorem start_stopped_eq (c : StartService) (r : Except String Int)
    (s : ServiceState) (h : s.status = ServiceStatus.Stopped) :
    start c r s =
      ({ s with logs := s.logs ++ [Severity.info] }, Except.ok (-1)) := by
  simp [start, h]

/-- Equation for `waitForExit` when the service was never started:
the very first line reads `cfg.command` of the still-undefined `cfg`. -/
theorem waitForExit_noCfg_eq (s : ServiceState) (hc : s.cfg = none) :
    waitForExit s =
      (s, Except.error "TypeError: cannot read command of undefined cfg") := by
  simp [waitForExit, hc]

/-- Equation for `waitForExit` in status `NotStarted` (with `cfg`
assigned): directly assigns `Stopped` without an event and resolves with
the null-filled default status. -/
theorem waitForExit_notStarted_eq (c : StartService) (s : ServiceState)
    (h : s.status = ServiceStatus.NotStarted) (hc : s.cfg = some c) :
    waitForExit s =
      ({ s with
          status := ServiceStatus.Stopped
          exitStatus := some ⟨c.command, none, none, none⟩
          resolvedValues := s.resolvedValues ++ [⟨c.command, none, none, none⟩] },
        Except.ok (StopResult.now ⟨c.command, none, none, none⟩)) := by
  simp [waitForExit, h, hc]

/-- Equation for `waitForExit` in status `Started`: registers a
`waitForStop` listener. -/
theorem waitForExit_started_eq (c : StartService) (s : ServiceState)
    (h : s.status = ServiceStatus.Started) (hc : s.cfg = some c) :
    waitForExit s =
      ({ s with
          logs := s.logs ++ [Severity.debug]
          pendingWaiters := s.pendingWaiters + 1 },
        Except.ok StopResult.pending) := by
  simp [waitForExit, h, hc]

/-- Equation for `waitForExit` in status `Stopping`: registers a
`waitForStop` listener. -/
theorem waitForExit_stopping_eq (c : StartService) (s : ServiceState)
    (h : s.status = ServiceStatus.Stopping) (hc : s.cfg = some c) :
    waitForExit s =
      ({ s with
          logs := s.logs ++ [Severity.debug]
          pendingWaiters := s.pendingWaiters + 1 },
        Except.ok StopResult.pending) := by
  simp [waitForExit, h, hc]

/-- Equation for `waitForExit` in status `Stopped`: resolves immediately
with the cached exit status. -/
theorem waitForExit_stopped_eq (c : StartService) (s : ServiceState)
    (h : s.status = ServiceStatus.Stopped) (hc : s.cfg = some c) :
    waitForExit s =
      ({ s with
          resolvedValues := s.resolvedValues ++
            [s.exitStatus.getD ⟨c.command, none, none, none⟩] },
        Except.ok (StopResult.now
          (s.exitStatus.getD ⟨c.command, none, none, none⟩))) := by
  simp [waitForExit, h, hc]

/-- Equation for `stop` on a `Started` service: `doStop` runs (Stopping
transition, shutdown action, armed kill timer) and the caller becomes a
pending waiter. -/
theorem stop_started_eq (c : StartService) (t : Nat) (s : ServiceState)
    (h : s.status = ServiceStatus.Started) (hc : s.cfg = some c) :
    stop t s =
      ({ s with
          logs := s.logs ++ [Severity.info, Severity.debug, Severity.debug]
          status := ServiceStatus.Stopping
          events := s.events ++ [ServiceStatus.Stopping]
          actions := s.actions ++
            (match s.proc with
              | some p => [shutdownAction c p]
              | none => [])
          killTimer := some t
          pendingWaiters := s.pendingWaiters + 1 },
        Except.ok StopResult.pending) := by
  simp only [stop, h, hc, doStop_eq]
  rw [waitForExit_stopping_eq c _ (by simp) (by simp [hc])]
  simp

/-- Equation for `stop` on a `Stopping` service: log and join the pending
waiters. -/
theorem stop_stopping_eq (c : StartService) (t : Nat) (s : ServiceState)
    (h : s.status = ServiceStatus.Stopping) (hc : s.cfg = some c) :
    stop t s =
      ({ s with
          logs := s.logs ++ [Severity.info, Severity.debug]
          pendingWaiters := s.pendingWaiters + 1 },
        Except.ok StopResult.pending) := by
  simp only [stop, h]
  rw [waitForExit_stopping_eq c _ (by simp [h]) (by simp [hc])]
  simp

/-- Equation for `stop` on a `Stopped` service: log and resolve with the
cached exit status. -/
theorem stop_stopped_eq (c : StartService) (t : Nat) (s : ServiceState)
    (h : s.status = ServiceStatus.Stopped) (hc : s.cfg = some c) :
    stop t s =
      ({ s with
          logs := s.logs ++ [Severity.info]
          resolvedValues := s.resolvedValues ++
            [s.exitStatus.getD ⟨c.command, none, none, none⟩] },
        Except.ok (StopResult.now
          (s.exitStatus.getD ⟨c.command, none, none, none⟩))) := by
  simp only [stop, h]
  rw [waitForExit_stopped_eq c _ (by simp [h]) (by simp [hc])]

/-- Equation for `stop` on a `NotStarted` service with `cfg` assigned. -/
theorem stop_notStarted_eq (c : StartService) (t : Nat) (s : ServiceState)
    (h : s.status = ServiceStatus.NotStarted) (hc : s.cfg = some c) :
    stop t s =
      ({ s with
          logs := s.logs ++ [Severity.info]
          status := ServiceStatus.Stopped
          exitStatus := some ⟨c.command, none, none, none⟩
          resolvedValues := s.resolvedValues ++ [⟨c.command, none, none, none⟩] },
        Except.ok (StopResult.now ⟨c.command, none, none, none⟩)) := by
  simp only [stop, h]
  rw [waitForExit_notStarted_eq c _ (by simp [h]) (by simp [hc])]

/-- Equation for `onStopped` when the service holds a config. -/
theorem onStopped_eq (c : StartService) (code : Option Int)
    (signal : Option String) (err : Option String) (s : ServiceState)
    (hc : s.cfg = some c) :
    onStopped code signal err s =
      { s with
        exitStatus := some ⟨c.command, code, signal, err⟩
        logs := s.logs ++ [Severity.debug, Severity.debug]
        killTimer := none
        proc := none
        status := ServiceStatus.Stopped
        events := s.events ++ [ServiceStatus.Stopped]
        resolvedValues := s.resolvedValues ++
          List.replicate s.pendingWaiters ⟨c.command, code, signal, err⟩
        pendingWaiters := 0 } := by
  simp only [onStopped, hc]
  rw [setStatus_stopped_eq _ ⟨c.command, code, signal, err⟩ (by simp)]
  simp

/-- Equation for the child's `exit` event while the handle is held. -/
theorem procExit_eq (c : StartService) (p : ChildProc) (code : Option Int)
    (signal : Option String) (s : ServiceState)
    (hp : s.proc = some p) (hc : s.cfg = some c) :
    procExit code signal s =
      { s with
        exitStatus := some ⟨c.command, code, signal, none⟩
        logs := s.logs ++ [Severity.debug, Severity.debug]
        killTimer := none
        proc := none
        status := ServiceStatus.Stopped
        events := s.events ++ [ServiceStatus.Stopped]
        resolvedValues := s.resolvedValues ++
          List.replicate s.pendingWaiters ⟨c.command, code, signal, none⟩
        pendingWaiters := 0 } := by
  simp only [procExit, hp]
  exact onStopped_eq c code signal none s hc

/-- Equation for the child's `error` event while the handle is held. -/
theorem procError_eq (c : StartService) (p : ChildProc) (e : String)
    (s : ServiceState) (hp : s.proc = some p) (hc : s.cfg = some c) :
    procError e s =
      { s with
        exitStatus := some ⟨c.command, none, none, some e⟩
        logs := s.logs ++ [Severity.error, Severity.debug, Severity.debug]
        killTimer := none
        proc := none
        status := ServiceStatus.Stopped
        events := s.events ++ [ServiceStatus.Stopped]
        resolvedValues := s.resolvedValues ++
          List.replicate s.pendingWaiters ⟨c.command, none, none, some e⟩
        pendingWaiters := 0 } := by
  simp only [procError, hp]
  rw [onStopped_eq c none none (some e) _ (by simp [hc])]
  simp

/-- Equation for the kill timeout elapsing while the process is still
running. -/
theorem killTimerElapse_armed_eq (p : ChildProc) (t : Nat)
    (s : ServiceState) (hk : s.killTimer = some t) (hp : s.proc = some p) :
    killTimerElapse s =
      { s with
        killTimer := none
        logs := s.logs ++ [Severity.info]
        actions := s.actions ++ [Action.kill p.pid "SIGKILL"] } := by
  simp [killTimerElapse, hk, hp]

end Service

end CardanoLauncher

namespace CardanoLauncher

open Service in
/-- C3: for a Service in Started status, the first stop(timeoutSeconds)
call transitions it to Stopping and either closes the child's stdin (when
the shutdown method is cooperative) or immediately sends SIGTERM
(`shutdownAction`); if the process has not reached Stopped when
timeoutSeconds elapses, it is forcibly killed with SIGKILL; whichever of
natural exit or forced kill happens first leaves no pending kill timer,
and the finalized ExitStatus records the actually observed
code/signal/error. -/
theorem service_stop_protocol (c : StartService) (p : ChildProc) (t : Nat)
    (cd : Option Int) (sg : Option String) (s : ServiceState)
    (h : s.status = ServiceStatus.Started) (hp : s.proc = some p)
    (hc : s.cfg = some c) :
    ((stop t s).1.status = ServiceStatus.Stopping ∧
      (stop t s).1.actions = s.actions ++ [shutdownAction c p] ∧
      (stop t s).1.killTimer = some t) ∧
    ((procExit cd sg (stop t s).1).killTimer = none ∧
      (procExit cd sg (stop t s).1).status = ServiceStatus.Stopped ∧
      (procExit cd sg (stop t s).1).exitStatus =
        some ⟨c.command, cd, sg, none⟩) ∧
    ((killTimerElapse (stop t s).1).actions =
        s.actions ++ [shutdownAction c p, Action.kill p.pid "SIGKILL"] ∧
      (killTimerElapse (stop t s).1).killTimer = none ∧
      (procExit none (some "SIGKILL")
          (killTimerElapse (stop t s).1)).exitStatus =
        some ⟨c.command, none, some "SIGKILL", none⟩ ∧
      (procExit none (some "SIGKILL")
          (killTimerElapse (stop t s).1)).status = ServiceStatus.Stopped) := by
  have hs1 := stop_started_eq c t s h hc
  simp only [hs1, hp]
  refine ⟨⟨by simp, by simp, by simp⟩, ?_, ?_⟩
  · rw [procExit_eq c p cd sg _ (by simp) (by simp [hc])]
    exact ⟨by simp, by simp, by simp⟩
  · rw [killTimerElapse_armed_eq p t _ (by simp) (by simp)]
    rw [procExit_eq c p none (some "SIGKILL") _ (by simp) (by simp [hc])]
    exact ⟨by simp, by simp, by simp, by simp⟩

/-- Witness for C3 at a concrete started service. -/
theorem service_stop_protocol_app :
    ((Service.stop 5
        { status := ServiceStatus.Started, cfg := some demoWalletCfg,
          proc := some ⟨9, true⟩ }).1).status = ServiceStatus.Stopping ∧
    (Service.procExit (some 0) none
        (Service.stop 5
          { status := ServiceStatus.Started, cfg := some demoWalletCfg,
            proc := some ⟨9, true⟩ }).1).exitStatus =
      some ⟨demoWalletCfg.command, some 0, none, none⟩ := by
  have happ := service_stop_protocol demoWalletCfg ⟨9, true⟩ 5 (some 0) none
    { status := ServiceStatus.Started, cfg := some demoWalletCfg,
      proc := some ⟨9, true⟩ } rfl rfl rfl
  exact ⟨happ.1.1, happ.2.1.2.2⟩

end CardanoLauncher

namespace CardanoLauncher

/-- Repeated `stop` calls on a service that is already `Stopping` only log
and add pending waiters; status, process handle, exit status, kill timer,
events and actions are untouched. -/
theorem stopN_stopping_fields (t : Nat) (c : StartService) :
    ∀ (M : Nat) (s : ServiceState), s.status = ServiceStatus.Stopping →
      s.cfg = some c →
      (stopN t M s).status = ServiceStatus.Stopping ∧
      (stopN t M s).cfg = some c ∧
      (stopN t M s).proc = s.proc ∧
      (stopN t M s).exitStatus = s.exitStatus ∧
      (stopN t M s).killTimer = s.killTimer ∧
      (stopN t M s).events = s.events ∧
      (stopN t M s).actions = s.actions ∧
      (stopN t M s).pendingWaiters = s.pendingWaiters + M ∧
      (stopN t M s).resolvedValues = s.resolvedValues := by
  intro M
  induction M with
  | zero =>
    intro s h hc
    simp [stopN, h, hc]
  | succ M ih =>
    intro s h hc
    simp only [stopN]
    rw [Service.stop_stopping_eq c t s h hc]
    obtain ⟨h1, h2, h3, h4, h5, h6, h7, h8, h9⟩ :=
      ih { s with
            logs := s.logs ++ [Severity.info, Severity.debug]
            pendingWaiters := s.pendingWaiters + 1 }
        (by simp [h]) (by simp [hc])
    refine ⟨h1, h2, ?_, ?_, ?_, ?_, ?_, ?_, ?_⟩
    all_goals (try simp_all)
    all_goals omega

/-- Witness-free helper: the state right after a successful `start` from
the initial state. -/
theorem start_from_init (c : StartService) (pid : Int) :
    Service.start c (Except.ok pid) ({} : ServiceState) =
      ({ status := ServiceStatus.Started
         cfg := some c
         proc := some ⟨pid, c.supportsCleanShutdown⟩
         events := [ServiceStatus.Started]
         logs := [Severity.info, Severity.debug]
         actions := [Action.spawn c.command c.args] },
        Except.ok pid) := by
  rw [Service.start_notStarted_ok_eq c pid _ rfl]
  simp

open Service in
/-- C4: for every Service and every N ≥ 1, calling stop() N times yields N
promises that all resolve to the identical ExitStatus value — created once
when the process is confirmed gone and cached thereafter — and the
statusChanged event stream contains exactly one Stopping and exactly one
Stopped event. -/
theorem service_stop_idempotent (c : StartService) (pid : Int) (t : Nat)
    (N : Nat) (cd : Option Int) (sg : Option String) (hN : 1 ≤ N) :
    (procExit cd sg
        (stopN t N (start c (Except.ok pid) ({} : ServiceState)).1)).resolvedValues =
      List.replicate N ⟨c.command, cd, sg, none⟩ ∧
    ((procExit cd sg
        (stopN t N (start c (Except.ok pid) ({} : ServiceState)).1)).events.filter
          fun e => e = ServiceStatus.Stopping).length = 1 ∧
    ((procExit cd sg
        (stopN t N (start c (Except.ok pid) ({} : ServiceState)).1)).events.filter
          fun e => e = ServiceStatus.Stopped).length = 1 ∧
    (procExit cd sg
        (stopN t N (start c (Except.ok pid) ({} : ServiceState)).1)).exitStatus =
      some ⟨c.command, cd, sg, none⟩ ∧
    (stop t (procExit cd sg
        (stopN t N (start c (Except.ok pid) ({} : ServiceState)).1))).2 =
      Except.ok (StopResult.now ⟨c.command, cd, sg, none⟩) := by
  obtain ⟨M, rfl⟩ : ∃ M, N = M + 1 := ⟨N - 1, by omega⟩
  rw [start_from_init c pid]
  simp only [stopN]
  rw [stop_started_eq c t _ rfl rfl]
  simp only [List.cons_append, List.nil_append, List.singleton_append,
    Nat.zero_add]
  obtain ⟨h1, h2, h3, h4, h5, h6, h7, h8, h9⟩ :=
    stopN_stopping_fields t c M
      { status := ServiceStatus.Stopping
        cfg := some c
        proc := some ⟨pid, c.supportsCleanShutdown⟩
        killTimer := some t
        events := [ServiceStatus.Started, ServiceStatus.Stopping]
        logs := [Severity.info, Severity.debug, Severity.info, Severity.debug,
          Severity.debug]
        actions := [Action.spawn c.command c.args,
          shutdownAction c ⟨pid, c.supportsCleanShutdown⟩]
        pendingWaiters := 1 }
      rfl rfl
  dsimp only at h3 h4 h5 h6 h7 h8 h9
  rw [procExit_eq c ⟨pid, c.supportsCleanShutdown⟩ cd sg _ h3 h2]
  refine ⟨?_, ?_, ?_, by simp, ?_⟩
  · rw [h9, h8, h6]
    rw [Nat.add_comm 1 M, List.replicate_succ]
    simp
  · rw [h6]
    simp
  · rw [h6]
    simp
  · rw [stop_stopped_eq c t _ (by simp) (by simp [h2])]
    simp

end CardanoLauncher

namespace CardanoLauncher

/-- Witness for C4 with two concurrent stop calls at a concrete service. -/
theorem service_stop_idempotent_app :
    (Service.procExit (some 0) none
        (stopN 2 2 (Service.start demoWalletCfg (Except.ok 7)
          ({} : ServiceState)).1)).resolvedValues =
      List.replicate 2 ⟨demoWalletCfg.command, some 0, none, none⟩ :=
  (service_stop_idempotent demoWalletCfg 7 2 2 (some 0) none (by decide)).1

/-- C5 counterexample: calling start() twice from the initial state
produces the event stream [Started] — a single start-up status event, not
a pair of them (this Service has no separate Starting status). -/
theorem service_two_starts_single_event :
    (Service.start demoNodeCfg (Except.ok 7)
        (Service.start demoNodeCfg (Except.ok 7) ({} : ServiceState)).1).1.events =
      [ServiceStatus.Started] ∧
    ¬((Service.start demoNodeCfg (Except.ok 7)
        (Service.start demoNodeCfg (Except.ok 7)
          ({} : ServiceState)).1).1.events.length = 2) := by
  decide

open Service in
/-- C5 (amended): calling start() twice on a Service before it stops
spawns the underlying process only once and returns the same process id
both times, producing only one start-up status event (a single `Started`
emission); calling start() while the Service is Stopping or Stopped spawns
nothing and returns the -1 sentinel. -/
theorem service_start_idempotent (c : StartService) (pid : Int)
    (r2 : Except String Int) :
    ((start c (Except.ok pid) ({} : ServiceState)).2 = Except.ok pid ∧
      (start c r2 (start c (Except.ok pid) ({} : ServiceState)).1).2 =
        Except.ok pid ∧
      (start c r2 (start c (Except.ok pid) ({} : ServiceState)).1).1.actions =
        [Action.spawn c.command c.args] ∧
      (start c r2 (start c (Except.ok pid) ({} : ServiceState)).1).1.events =
        [ServiceStatus.Started]) ∧
    (∀ s : ServiceState,
      (s.status = ServiceStatus.Stopping ∨ s.status = ServiceStatus.Stopped) →
      (start c r2 s).2 = Except.ok (-1) ∧
      (start c r2 s).1.actions = s.actions ∧
      (start c r2 s).1.events = s.events) := by
  constructor
  · rw [start_from_init c pid]
    rw [start_started_eq c r2 _ rfl]
    exact ⟨by simp, by simp, by simp, by simp⟩
  · intro s hs
    rcases hs with h | h
    · rw [start_stopping_eq c r2 s h]
      exact ⟨by simp, by simp, by simp⟩
    · rw [start_stopped_eq c r2 s h]
      exact ⟨by simp, by simp, by simp⟩

/-- Witness for C5 (amended) at a stopped service. -/
theorem service_start_idempotent_app :
    (Service.start demoNodeCfg (Except.ok 7)
        ({ status := ServiceStatus.Stopped } : ServiceState)).2 =
      Except.ok (-1) :=
  ((service_start_idempotent demoNodeCfg 7 (Except.ok 7)).2
    { status := ServiceStatus.Stopped } (Or.inr rfl)).1

/-- C6 (evaluation at the failing input): `stop()` on a never-started
Service evaluates `cfg.command` with `cfg` still unassigned, so instead of
resolving with the null-filled ExitStatus it throws a TypeError and leaves
the status at NotStarted; the same `stop()` with `cfg` assigned shows the
intended behaviour of the NotStarted branch of `waitForExit` (immediate
null-filled resolution, final status Stopped, no Started transition). -/
theorem service_stop_neverStarted_bug :
    (Service.stop 60 ({} : ServiceState)).2 =
      Except.error "TypeError: cannot read command of undefined cfg" ∧
    (Service.stop 60 ({} : ServiceState)).1.status =
      ServiceStatus.NotStarted ∧
    (Service.stop 60 ({} : ServiceState)).1.events = [] ∧
    (Service.stop 60 ({ cfg := some demoWalletCfg } : ServiceState)).2 =
      Except.ok (Service.StopResult.now
        ⟨demoWalletCfg.command, none, none, none⟩) ∧
    (Service.stop 60 ({ cfg := some demoWalletCfg } : ServiceState)).1.status =
      ServiceStatus.Stopped ∧
    (Service.stop 60 ({ cfg := some demoWalletCfg } : ServiceState)).1.events =
      [] :=
  ⟨rfl, rfl, rfl, rfl, rfl, rfl⟩

/-- C7 counterexample: starting a bogus command (the spawn error is
reported through the child's `error` event, as for ENOENT) does not skip
the Started state — Started is emitted before the failure is known. -/
theorem service_spawn_failure_through_started :
    ServiceStatus.Started ∈
      (Service.procError "Error: spawn xyzzy ENOENT"
        (Service.start ⟨"xyzzy", [], true⟩ (Except.ok 33)
          ({} : ServiceState)).1).events ∧
    (Service.procError "Error: spawn xyzzy ENOENT"
        (Service.start ⟨"xyzzy", [], true⟩ (Except.ok 33)
          ({} : ServiceState)).1).status = ServiceStatus.Stopped := by
  decide

open Service in
/-- C7 (amended): if spawning the child fails (the error is delivered via
the handle's `error` event, as for a nonexistent command), the Service
transitions NotStarted, Started, Stopped — through Started, since the
child handle is created before the failure is reported — with the error
recorded in ExitStatus (code and signal null), exactly one error-level
log, and the outcome delivered through the same statusChanged stream and
the same waitForExit() promise as a normal runtime exit. -/
theorem service_spawn_failure_shape (c : StartService) (pid : Int)
    (e : String) :
    (procError e (start c (Except.ok pid) ({} : ServiceState)).1).status =
      ServiceStatus.Stopped ∧
    (procError e (start c (Except.ok pid) ({} : ServiceState)).1).exitStatus =
      some ⟨c.command, none, none, some e⟩ ∧
    (procError e (start c (Except.ok pid) ({} : ServiceState)).1).events =
      [ServiceStatus.Started, ServiceStatus.Stopped] ∧
    ((procError e (start c (Except.ok pid)
        ({} : ServiceState)).1).logs.filter
          fun l => l = Severity.error).length = 1 ∧
    (waitForExit (procError e (start c (Except.ok pid)
        ({} : ServiceState)).1)).2 =
      Except.ok (StopResult.now ⟨c.command, none, none, some e⟩) ∧
    (procError e (waitForExit (start c (Except.ok pid)
        ({} : ServiceState)).1).1).resolvedValues =
      [⟨c.command, none, none, some e⟩] := by
  rw [start_from_init c pid]
  rw [procError_eq c ⟨pid, c.supportsCleanShutdown⟩ e _ rfl rfl]
  refine ⟨by simp, by simp, by simp, by simp [List.filter], ?_, ?_⟩
  · rw [waitForExit_stopped_eq c _ (by simp) (by simp)]
    simp
  · rw [waitForExit_started_eq c _ (by simp) (by simp)]
    rw [procError_eq c ⟨pid, c.supportsCleanShutdown⟩ e _ (by simp) (by simp)]
    simp

end CardanoLauncher

namespace CardanoLauncher

namespace Launcher

@[simp] theorem stopCall_walletService (t : Nat) (L : LauncherState) :
    (stopCall t L).walletService = (Service.stop t L.walletService).1 := by
  unfold stopCall
  dsimp only
  split <;> rfl

@[simp] theorem stopCall_nodeService (t : Nat) (L : LauncherState) :
    (stopCall t L).nodeService = (Service.stop t L.nodeService).1 := by
  unfold stopCall
  dsimp only
  split <;> rfl

@[simp] theorem stopCall_exited (t : Nat) (L : LauncherState) :
    (stopCall t L).exited = L.exited := by
  unfold stopCall
  dsimp only
  split <;> rfl

@[simp] theorem stopCall_exitEvents (t : Nat) (L : LauncherState) :
    (stopCall t L).exitEvents = L.exitEvents := by
  unfold stopCall
  dsimp only
  split <;> rfl

@[simp] theorem stopCall_stopResolutions (t : Nat) (L : LauncherState) :
    (stopCall t L).stopResolutions = L.stopResolutions := by
  unfold stopCall
  dsimp only
  split <;> rfl

@[simp] theorem stopCall_readyEvents (t : Nat) (L : LauncherState) :
    (stopCall t L).readyEvents = L.readyEvents := by
  unfold stopCall
  dsimp only
  split <;> rfl

@[simp] theorem stopCall_startRegistered (t : Nat) (L : LauncherState) :
    (stopCall t L).startRegistered = L.startRegistered := by
  unfold stopCall
  dsimp only
  split <;> rfl

@[simp] theorem stopCall_startOutcome (t : Nat) (L : LauncherState) :
    (stopCall t L).startOutcome = L.startOutcome := by
  unfold stopCall
  dsimp only
  split <;> rfl

end Launcher

open Service Launcher in
/-- C1: in every Launcher, whenever either Service (node or wallet)
reaches status Stopped, the constructor subscription triggers stop() on
the other Service, so the other transitions to Stopping (and its child is
signalled); and the cross-trigger is an idempotent no-op on a Service that
is already Stopping or Stopped: its status, event stream, actions, process
handle and exit status are unchanged, so two simultaneous exits cannot
deadlock each other. -/
theorem launcher_cross_propagation (L : LauncherState) (c : Option Int)
    (g : Option String) :
    (∀ pw : ChildProc, L.walletService.proc = some pw →
      ∀ cw : StartService, L.walletService.cfg = some cw →
      (walletProcExit c g L).walletService.status = ServiceStatus.Stopped ∧
      (L.nodeService.status = ServiceStatus.Started →
        ∀ cn : StartService, L.nodeService.cfg = some cn →
        (walletProcExit c g L).nodeService.status = ServiceStatus.Stopping) ∧
      ((L.nodeService.status = ServiceStatus.Stopping ∨
          L.nodeService.status = ServiceStatus.Stopped) →
        ∀ cn : StartService, L.nodeService.cfg = some cn →
        (walletProcExit c g L).nodeService.status = L.nodeService.status ∧
        (walletProcExit c g L).nodeService.events = L.nodeService.events ∧
        (walletProcExit c g L).nodeService.actions = L.nodeService.actions ∧
        (walletProcExit c g L).nodeService.proc = L.nodeService.proc ∧
        (walletProcExit c g L).nodeService.exitStatus =
          L.nodeService.exitStatus)) ∧
    (∀ pn : ChildProc, L.nodeService.proc = some pn →
      ∀ cn : StartService, L.nodeService.cfg = some cn →
      (nodeProcExit c g L).nodeService.status = ServiceStatus.Stopped ∧
      (L.walletService.status = ServiceStatus.Started →
        ∀ cw : StartService, L.walletService.cfg = some cw →
        (nodeProcExit c g L).walletService.status = ServiceStatus.Stopping) ∧
      ((L.walletService.status = ServiceStatus.Stopping ∨
          L.walletService.status = ServiceStatus.Stopped) →
        ∀ cw : StartService, L.walletService.cfg = some cw →
        (nodeProcExit c g L).walletService.status = L.walletService.status ∧
        (nodeProcExit c g L).walletService.events = L.walletService.events ∧
        (nodeProcExit c g L).walletService.actions =
          L.walletService.actions ∧
        (nodeProcExit c g L).walletService.proc = L.walletService.proc ∧
        (nodeProcExit c g L).walletService.exitStatus =
          L.walletService.exitStatus)) := by
  constructor
  · intro pw hwp cw hwc
    have hred : walletProcExit c g L =
        serviceStoppedHandler
          { L with walletService := procExit c g L.walletService } := by
      unfold walletProcExit
      rw [hwp, hwc]
    rw [hred]
    unfold serviceStoppedHandler
    have hw' := procExit_eq cw pw c g L.walletService hwp hwc
    refine ⟨?_, ?_, ?_⟩
    · rw [stopCall_walletService]
      simp only [hw']
      rw [stop_stopped_eq cw 60 _ (by simp) (by simp [hwc])]
    · intro hn cn hnc
      rw [stopCall_nodeService]
      simp only []
      rw [stop_started_eq cn 60 _ hn hnc]
    · intro hn cn hnc
      rw [stopCall_nodeService]
      simp only []
      rcases hn with h | h
      · rw [stop_stopping_eq cn 60 _ h hnc]
        simp [h]
      · rw [stop_stopped_eq cn 60 _ h hnc]
        simp [h]
  · intro pn hnp cn hnc
    have hred : nodeProcExit c g L =
        serviceStoppedHandler
          { L with nodeService := procExit c g L.nodeService } := by
      unfold nodeProcExit
      rw [hnp, hnc]
    rw [hred]
    unfold serviceStoppedHandler
    have hn' := procExit_eq cn pn c g L.nodeService hnp hnc
    refine ⟨?_, ?_, ?_⟩
    · rw [stopCall_nodeService]
      simp only [hn']
      rw [stop_stopped_eq cn 60 _ (by simp) (by simp [hnc])]
    · intro hw cw hwc
      rw [stopCall_walletService]
      simp only []
      rw [stop_started_eq cw 60 _ hw hwc]
    · intro hw cw hwc
      rw [stopCall_walletService]
      simp only []
      rcases hw with h | h
      · rw [stop_stopping_eq cw 60 _ h hwc]
        simp [h]
      · rw [stop_stopped_eq cw 60 _ h hwc]
        simp [h]

/-- Witness for C1: the wallet exits while the node is already Stopping —
the cross-trigger leaves the node's status and actions untouched. -/
theorem launcher_cross_propagation_app :
    (Launcher.walletProcExit (some 1) none
        { walletService :=
            { status := ServiceStatus.Started, cfg := some demoWalletCfg,
              proc := some ⟨9, true⟩ }
          nodeService :=
            { status := ServiceStatus.Stopping, cfg := some demoNodeCfg,
              proc := some ⟨8, false⟩,
              killTimer := some 60 } }).walletService.status =
      ServiceStatus.Stopped ∧
    (Launcher.walletProcExit (some 1) none
        { walletService :=
            { status := ServiceStatus.Started, cfg := some demoWalletCfg,
              proc := some ⟨9, true⟩ }
          nodeService :=
            { status := ServiceStatus.Stopping, cfg := some demoNodeCfg,
              proc := some ⟨8, false⟩,
              killTimer := some 60 } }).nodeService.actions =
      ({ status := ServiceStatus.Stopping, cfg := some demoNodeCfg,
          proc := some ⟨8, false⟩,
          killTimer := some 60 } : ServiceState).actions := by
  have happ := launcher_cross_propagation
    { walletService :=
        { status := ServiceStatus.Started, cfg := some demoWalletCfg,
          proc := some ⟨9, true⟩ }
      nodeService :=
        { status := ServiceStatus.Stopping, cfg := some demoNodeCfg,
          proc := some ⟨8, false⟩, killTimer := some 60 } }
    (some 1) none
  obtain ⟨hwall, hidem⟩ := happ.1 ⟨9, true⟩ rfl demoWalletCfg rfl
  exact ⟨hwall, (hidem.2 (Or.inl rfl) demoNodeCfg rfl).2.2.1⟩

end CardanoLauncher

namespace CardanoLauncher

namespace Service

/-- `stop` preserves the structural invariant. -/
theorem SInv_stop (t : Nat) (s : ServiceState) (h : SInv s) :
    SInv ((stop t s).1) := by
  obtain ⟨h1, h2⟩ := h
  cases hc : s.cfg with
  | none =>
    cases hst : s.status <;>
      simp [SInv, stop, waitForExit, hst, hc, doStop_eq] <;>
      simp_all
  | some c =>
    cases hst : s.status with
    | NotStarted =>
      rw [SInv, stop_notStarted_eq c t s hst hc]
      exact ⟨by simp, by simp [h1 hst]⟩
    | Started =>
      rw [SInv, stop_started_eq c t s hst hc]
      exact ⟨by simp, by simp⟩
    | Stopping =>
      rw [SInv, stop_stopping_eq c t s hst hc]
      exact ⟨by simp [hst], by simp [hst]⟩
    | Stopped =>
      rw [SInv, stop_stopped_eq c t s hst hc]
      exact ⟨by simp [hst], by simp [hst, h2 hst]⟩

/-- `start` preserves the structural invariant. -/
theorem SInv_start (c : StartService) (r : Except String Int)
    (s : ServiceState) (h : SInv s) : SInv ((start c r s).1) := by
  obtain ⟨h1, h2⟩ := h
  cases hst : s.status with
  | NotStarted =>
    cases r with
    | ok pid =>
      rw [SInv, start_notStarted_ok_eq c pid s hst]
      exact ⟨by simp, by simp⟩
    | error e =>
      rw [SInv, start_notStarted_err_eq c e s hst]
      exact ⟨by simp [hst, h1 hst], by simp [hst]⟩
  | Started =>
    rw [SInv, start_started_eq c r s hst]
    exact ⟨by simp [hst], by simp [hst]⟩
  | Stopping =>
    rw [SInv, start_stopping_eq c r s hst]
    exact ⟨by simp [hst], by simp [hst]⟩
  | Stopped =>
    rw [SInv, start_stopped_eq c r s hst]
    exact ⟨by simp [hst], by simp [hst, h2 hst]⟩

/-- `waitForExit` preserves the structural invariant. -/
theorem SInv_waitForExit (s : ServiceState) (h : SInv s) :
    SInv ((waitForExit s).1) := by
  obtain ⟨h1, h2⟩ := h
  cases hc : s.cfg with
  | none => simpa [SInv, waitForExit, hc] using ⟨h1, h2⟩
  | some c =>
    cases hst : s.status with
    | NotStarted =>
      rw [SInv, waitForExit_notStarted_eq c s hst hc]
      exact ⟨by simp, by simp [h1 hst]⟩
    | Started =>
      rw [SInv, waitForExit_started_eq c s hst hc]
      exact ⟨by simp [hst], by simp [hst]⟩
    | Stopping =>
      rw [SInv, waitForExit_stopping_eq c s hst hc]
      exact ⟨by simp [hst], by simp [hst]⟩
    | Stopped =>
      rw [SInv, waitForExit_stopped_eq c s hst hc]
      exact ⟨by simp [hst], by simp [hst, h2 hst]⟩

/-- The termination events preserve the structural invariant. -/
theorem SInv_procExit (c : Option Int) (g : Option String)
    (s : ServiceState) (h : SInv s) : SInv (procExit c g s) := by
  cases hp : s.proc with
  | none => simpa [procExit, hp] using h
  | some p =>
    cases hc : s.cfg with
    | none => simpa [procExit, onStopped, hp, hc] using h
    | some c0 =>
      rw [SInv, procExit_eq c0 p c g s hp hc]
      exact ⟨by simp, by simp⟩

/-- The `error` event preserves the structural invariant. -/
theorem SInv_procError (e : String) (s : ServiceState) (h : SInv s) :
    SInv (procError e s) := by
  cases hp : s.proc with
  | none => simpa [procError, hp] using h
  | some p =>
    cases hc : s.cfg with
    | none =>
      simp only [procError, hp, onStopped]
      simp only [SInv, hc]
      exact ⟨fun hst => hp ▸ h.1 hst, fun hst => hp ▸ h.2 hst⟩
    | some c0 =>
      rw [SInv, procError_eq c0 p e s hp hc]
      exact ⟨by simp, by simp⟩

@[simp] theorem killTimerElapse_proc (s : ServiceState) :
    (killTimerElapse s).proc = s.proc := by
  cases hk : s.killTimer <;> cases hp : s.proc <;>
    simp [killTimerElapse, hk, hp]

@[simp] theorem killTimerElapse_exitStatus (s : ServiceState) :
    (killTimerElapse s).exitStatus = s.exitStatus := by
  cases hk : s.killTimer <;> cases hp : s.proc <;>
    simp [killTimerElapse, hk, hp]

/-- The kill timeout elapsing preserves the structural invariant. -/
theorem SInv_killTimerElapse (s : ServiceState) (h : SInv s) :
    SInv (killTimerElapse s) := by
  obtain ⟨h1, h2⟩ := h
  refine ⟨fun hst => ?_, fun hst => ?_⟩
  · simp only [killTimerElapse_status] at hst
    simp [h1 hst]
  · simp only [killTimerElapse_status] at hst
    simp [h2 hst]

/-- A fully stopped service (status `Stopped`, handle dropped) is frozen
by `stop`: the status, handle and cached exit status are unchanged. -/
theorem stop_frozen (t : Nat) (s : ServiceState)
    (h : s.status = ServiceStatus.Stopped) (hp : s.proc = none) :
    ((stop t s).1).status = ServiceStatus.Stopped ∧
    ((stop t s).1).proc = none ∧
    ((stop t s).1).exitStatus = s.exitStatus := by
  cases hc : s.cfg with
  | none => simp [stop, waitForExit, h, hc, hp]
  | some c =>
    rw [stop_stopped_eq c t s h hc]
    exact ⟨by simp [h], by simp [hp], by simp⟩

/-- A fully stopped service is frozen by `start`. -/
theorem start_frozen (c : StartService) (r : Except String Int)
    (s : ServiceState) (h : s.status = ServiceStatus.Stopped) :
    ((start c r s).1).status = ServiceStatus.Stopped ∧
    ((start c r s).1).proc = s.proc ∧
    ((start c r s).1).exitStatus = s.exitStatus := by
  rw [start_stopped_eq c r s h]
  exact ⟨by simp [h], by simp, by simp⟩

/-- With no process handle, the termination events are no-ops. -/
theorem procExit_frozen (c : Option Int) (g : Option String)
    (s : ServiceState) (hp : s.proc = none) : procExit c g s = s := by
  simp [procExit, hp]

/-- With no process handle, the `error` event is a no-op. -/
theorem procError_frozen (e : String) (s : ServiceState)
    (hp : s.proc = none) : procError e s = s := by
  simp [procError, hp]

end Service

end CardanoLauncher

namespace CardanoLauncher

namespace Launcher

@[simp] theorem emitExit_walletService (st : ExitStatus) (L : LauncherState) :
    (emitExit st L).walletService = L.walletService := by
  unfold emitExit
  dsimp only
  split <;> rfl

@[simp] theorem emitExit_nodeService (st : ExitStatus) (L : LauncherState) :
    (emitExit st L).nodeService = L.nodeService := by
  unfold emitExit
  dsimp only
  split <;> rfl

@[simp] theorem emitExit_exited (st : ExitStatus) (L : LauncherState) :
    (emitExit st L).exited = L.exited := by
  unfold emitExit
  dsimp only
  split <;> rfl

@[simp] theorem emitExit_exitEvents (st : ExitStatus) (L : LauncherState) :
    (emitExit st L).exitEvents = L.exitEvents ++ [st] := by
  unfold emitExit
  dsimp only
  split <;> rfl

@[simp] theorem emitExit_stopResolutions (st : ExitStatus)
    (L : LauncherState) :
    (emitExit st L).stopResolutions = L.stopResolutions := by
  unfold emitExit
  dsimp only
  split <;> rfl

@[simp] theorem pollReady_walletService (L : LauncherState) :
    (pollReady L).walletService = L.walletService := by
  unfold pollReady
  dsimp only
  split
  · split <;> rfl
  · rfl

@[simp] theorem pollReady_nodeService (L : LauncherState) :
    (pollReady L).nodeService = L.nodeService := by
  unfold pollReady
  dsimp only
  split
  · split <;> rfl
  · rfl

@[simp] theorem pollReady_exited (L : LauncherState) :
    (pollReady L).exited = L.exited := by
  unfold pollReady
  dsimp only
  split
  · split <;> rfl
  · rfl

@[simp] theorem pollReady_exitEvents (L : LauncherState) :
    (pollReady L).exitEvents = L.exitEvents := by
  unfold pollReady
  dsimp only
  split
  · split <;> rfl
  · rfl

@[simp] theorem pollReady_stopResolutions (L : LauncherState) :
    (pollReady L).stopResolutions = L.stopResolutions := by
  unfold pollReady
  dsimp only
  split
  · split <;> rfl
  · rfl

/-- `Launcher.stop` preserves the launcher invariant. -/
theorem LInv_stopCall (t : Nat) (L : LauncherState) (h : LInv L) :
    LInv (stopCall t L) := by
  obtain ⟨hw, hn, hA, hB, hC⟩ := h
  refine ⟨?_, ?_, ?_, ?_, ?_⟩
  · rw [stopCall_walletService]
    exact Service.SInv_stop t _ hw
  · rw [stopCall_nodeService]
    exact Service.SInv_stop t _ hn
  · rw [stopCall_exited, stopCall_exitEvents]
    exact hA
  · rw [stopCall_exitEvents]
    exact hB
  · intro st hst
    rw [stopCall_stopResolutions] at hst
    obtain ⟨hws, hns, hwe, hne⟩ := hC st hst
    have hwf := Service.stop_frozen t L.walletService hws (hw.2 hws)
    have hnf := Service.stop_frozen t L.nodeService hns (hn.2 hns)
    rw [stopCall_walletService, stopCall_nodeService]
    exact ⟨hwf.1, hnf.1, by rw [hwf.2.2]; exact hwe,
      by rw [hnf.2.2]; exact hne⟩

/-- The POSIX signal handler preserves the launcher invariant. -/
theorem LInv_signalHandler (L : LauncherState) (h : LInv L) :
    LInv (signalHandler L) := by
  obtain ⟨hw, hn, hA, hB, hC⟩ := h
  refine ⟨Service.SInv_stop 0 _ hw, Service.SInv_stop 0 _ hn, hA, hB, ?_⟩
  intro st hst
  obtain ⟨hws, hns, hwe, hne⟩ := hC st hst
  have hwf := Service.stop_frozen 0 L.walletService hws (hw.2 hws)
  have hnf := Service.stop_frozen 0 L.nodeService hns (hn.2 hns)
  exact ⟨hwf.1, hnf.1, hwf.2.2.symm ▸ hwe, hnf.2.2.symm ▸ hne⟩

/-- `Launcher.start` preserves the launcher invariant. -/
theorem LInv_startCall (wcfg ncfg : StartService)
    (wspawn nspawn : Except String Int) (L : LauncherState) (h : LInv L) :
    LInv (startCall wcfg ncfg wspawn nspawn L) := by
  obtain ⟨hw, hn, hA, hB, hC⟩ := h
  refine ⟨Service.SInv_start wcfg wspawn _ hw,
    Service.SInv_start ncfg nspawn _ hn, hA, hB, ?_⟩
  intro st hst
  obtain ⟨hws, hns, hwe, hne⟩ := hC st hst
  have hwf := Service.start_frozen wcfg wspawn L.walletService hws
  have hnf := Service.start_frozen ncfg nspawn L.nodeService hns
  exact ⟨hwf.1, hnf.1, hwf.2.2.symm ▸ hwe, hnf.2.2.symm ▸ hne⟩

/-- Completion of a pending `Launcher.stop` join preserves the launcher
invariant: in particular the `exit` event is only emitted when the latch
is still unset, and the new resolution is built from the cached exit
statuses. -/
theorem LInv_stopComplete (L : LauncherState) (h : LInv L) :
    LInv (stopComplete L) := by
  obtain ⟨hw, hn, hA, hB, hC⟩ := h
  by_cases h0 : L.stopPending = 0
  · simpa [stopComplete, h0] using ⟨hw, hn, hA, hB, hC⟩
  · by_cases hS : L.walletService.status = ServiceStatus.Stopped ∧
        L.nodeService.status = ServiceStatus.Stopped
    · cases hwE : L.walletService.exitStatus with
      | none => simpa [stopComplete, h0, hS, hwE] using ⟨hw, hn, hA, hB, hC⟩
      | some w =>
        cases hnE : L.nodeService.exitStatus with
        | none =>
          simpa [stopComplete, h0, hS, hwE, hnE] using ⟨hw, hn, hA, hB, hC⟩
        | some n =>
          simp only [stopComplete, if_neg h0, if_pos hS, hwE, hnE]
          split
          · rename_i hcond
            refine ⟨hw, hn, ?_, hB, ?_⟩
            · intro hfalse
              exact absurd (hfalse.symm.trans hcond) (by decide)
            · intro st hst
              simp only [List.mem_append, List.mem_singleton] at hst
              rcases hst with hst | rfl
              · exact hC st hst
              · exact ⟨hS.1, hS.2, hwE.symm, hnE.symm⟩
          · rename_i hcond
            have hex' : L.exited = false := by
              revert hcond
              cases hLex : L.exited <;> simp
            refine ⟨by simpa using hw, by simpa using hn, ?_, ?_, ?_⟩
            · intro hfalse
              rw [emitExit_exited] at hfalse
              exact absurd hfalse (by simp)
            · rw [emitExit_exitEvents]
              have hEe : L.exitEvents = [] := hA hex'
              simp [hEe]
            · intro st hst
              rw [emitExit_stopResolutions] at hst
              simp only [List.mem_append, List.mem_singleton] at hst
              rw [emitExit_walletService, emitExit_nodeService]
              rcases hst with hst | rfl
              · exact hC st hst
              · exact ⟨hS.1, hS.2, hwE.symm, hnE.symm⟩
    · simpa [stopComplete, h0, hS] using ⟨hw, hn, hA, hB, hC⟩

/-- A readiness polling tick preserves the launcher invariant. -/
theorem LInv_pollReady (L : LauncherState) (h : LInv L) :
    LInv (pollReady L) := by
  obtain ⟨hw, hn, hA, hB, hC⟩ := h
  refine ⟨by simpa using hw, by simpa using hn, ?_, ?_, ?_⟩
  · rw [pollReady_exited, pollReady_exitEvents]
    exact hA
  · rw [pollReady_exitEvents]
    exact hB
  · intro st hst
    rw [pollReady_stopResolutions] at hst
    rw [pollReady_walletService, pollReady_nodeService]
    exact hC st hst

/-- The wallet's `exit` event (with the synchronous cross-trigger)
preserves the launcher invariant. -/
theorem LInv_walletProcExit (c : Option Int) (g : Option String)
    (L : LauncherState) (h : LInv L) : LInv (walletProcExit c g L) := by
  obtain ⟨hw, hn, hA, hB, hC⟩ := h
  unfold walletProcExit
  cases hp : L.walletService.proc with
  | none => simpa [hp] using ⟨hw, hn, hA, hB, hC⟩
  | some p =>
    cases hc : L.walletService.cfg with
    | none => simpa [hp, hc] using ⟨hw, hn, hA, hB, hC⟩
    | some cw =>
      simp only [hp, hc]
      unfold serviceStoppedHandler
      apply LInv_stopCall
      refine ⟨Service.SInv_procExit c g _ hw, hn, hA, hB, ?_⟩
      intro st hst
      obtain ⟨hws, _, _, _⟩ := hC st hst
      have hcontra := hw.2 hws
      rw [hp] at hcontra
      exact Option.noConfusion hcontra

/-- The wallet's `error` event preserves the launcher invariant. -/
theorem LInv_walletProcError (e : String) (L : LauncherState)
    (h : LInv L) : LInv (walletProcError e L) := by
  obtain ⟨hw, hn, hA, hB, hC⟩ := h
  unfold walletProcError
  cases hp : L.walletService.proc with
  | none => simpa [hp] using ⟨hw, hn, hA, hB, hC⟩
  | some p =>
    cases hc : L.walletService.cfg with
    | none => simpa [hp, hc] using ⟨hw, hn, hA, hB, hC⟩
    | some cw =>
      simp only [hp, hc]
      unfold serviceStoppedHandler
      apply LInv_stopCall
      refine ⟨Service.SInv_procError e _ hw, hn, hA, hB, ?_⟩
      intro st hst
      obtain ⟨hws, _, _, _⟩ := hC st hst
      have hcontra := hw.2 hws
      rw [hp] at hcontra
      exact Option.noConfusion hcontra

/-- The node's `exit` event preserves the launcher invariant. -/
theorem LInv_nodeProcExit (c : Option Int) (g : Option String)
    (L : LauncherState) (h : LInv L) : LInv (nodeProcExit c g L) := by
  obtain ⟨hw, hn, hA, hB, hC⟩ := h
  unfold nodeProcExit
  cases hp : L.nodeService.proc with
  | none => simpa [hp] using ⟨hw, hn, hA, hB, hC⟩
  | some p =>
    cases hc : L.nodeService.cfg with
    | none => simpa [hp, hc] using ⟨hw, hn, hA, hB, hC⟩
    | some cn =>
      simp only [hp, hc]
      unfold serviceStoppedHandler
      apply LInv_stopCall
      refine ⟨hw, Service.SInv_procExit c g _ hn, hA, hB, ?_⟩
      intro st hst
      obtain ⟨_, hns, _, _⟩ := hC st hst
      have hcontra := hn.2 hns
      rw [hp] at hcontra
      exact Option.noConfusion hcontra

/-- The node's `error` event preserves the launcher invariant. -/
theorem LInv_nodeProcError (e : String) (L : LauncherState) (h : LInv L) :
    LInv (nodeProcError e L) := by
  obtain ⟨hw, hn, hA, hB, hC⟩ := h
  unfold nodeProcError
  cases hp : L.nodeService.proc with
  | none => simpa [hp] using ⟨hw, hn, hA, hB, hC⟩
  | some p =>
    cases hc : L.nodeService.cfg with
    | none => simpa [hp, hc] using ⟨hw, hn, hA, hB, hC⟩
    | some cn =>
      simp only [hp, hc]
      unfold serviceStoppedHandler
      apply LInv_stopCall
      refine ⟨hw, Service.SInv_procError e _ hn, hA, hB, ?_⟩
      intro st hst
      obtain ⟨_, hns, _, _⟩ := hC st hst
      have hcontra := hn.2 hns
      rw [hp] at hcontra
      exact Option.noConfusion hcontra

/-- Every launcher step preserves the launcher invariant. -/
theorem LInv_applyLStep (σ : LStep) (L : LauncherState) (h : LInv L) :
    LInv (applyLStep σ L) := by
  obtain ⟨hw, hn, hA, hB, hC⟩ := h
  cases σ with
  | startL wcfg ncfg wspawn nspawn =>
    exact LInv_startCall wcfg ncfg wspawn nspawn L ⟨hw, hn, hA, hB, hC⟩
  | stopL t => exact LInv_stopCall t L ⟨hw, hn, hA, hB, hC⟩
  | complete => exact LInv_stopComplete L ⟨hw, hn, hA, hB, hC⟩
  | ready => exact LInv_pollReady L ⟨hw, hn, hA, hB, hC⟩
  | signal => exact LInv_signalHandler L ⟨hw, hn, hA, hB, hC⟩
  | wExit c g => exact LInv_walletProcExit c g L ⟨hw, hn, hA, hB, hC⟩
  | wError e => exact LInv_walletProcError e L ⟨hw, hn, hA, hB, hC⟩
  | nExit c g => exact LInv_nodeProcExit c g L ⟨hw, hn, hA, hB, hC⟩
  | nError e => exact LInv_nodeProcError e L ⟨hw, hn, hA, hB, hC⟩
  | wTimer =>
    simp only [applyLStep]
    refine ⟨Service.SInv_killTimerElapse _ hw, hn, hA, hB, ?_⟩
    intro st hst
    obtain ⟨hws, hns, hwe, hne⟩ := hC st hst
    exact ⟨by simpa using hws, hns, by simp [hwe], hne⟩
  | nTimer =>
    simp only [applyLStep]
    refine ⟨hw, Service.SInv_killTimerElapse _ hn, hA, hB, ?_⟩
    intro st hst
    obtain ⟨hws, hns, hwe, hne⟩ := hC st hst
    exact ⟨hws, by simpa using hns, hwe, by simp [hne]⟩

/-- The invariant holds along every run from a fresh launcher. -/
theorem LInv_runL (port : Nat) (steps : List LStep) :
    LInv (runL steps (initLauncher port)) := by
  have hinit : LInv (initLauncher port) := by
    refine ⟨⟨fun _ => rfl, fun hh => by cases hh⟩,
      ⟨fun _ => rfl, fun hh => by cases hh⟩, fun _ => rfl, Nat.zero_le _, ?_⟩
    intro st hst
    cases hst
  have hgen : ∀ (ss : List LStep) (L : LauncherState), LInv L →
      LInv (runL ss L) := by
    intro ss
    induction ss with
    | nil => intro L hL; exact hL
    | cons σ rest ih =>
      intro L hL
      exact ih (applyLStep σ L) (LInv_applyLStep σ L hL)
  exact hgen steps (initLauncher port) hinit

end Launcher

end CardanoLauncher

namespace CardanoLauncher

open Launcher in
/-- C2: for every Launcher, the exit event is emitted at most once over
the Launcher's lifetime, no matter how many times stop() is invoked or how
many triggers (manual stop, node crash, wallet crash, signal) fire; and
all resolved Launcher.stop() promises carry the identical
LaunchExitStatus value (wallet, node). -/
theorem launcher_exit_once_stop_values_equal (port : Nat)
    (steps : List LStep) :
    (runL steps (initLauncher port)).exitEvents.length ≤ 1 ∧
    (∀ a ∈ (runL steps (initLauncher port)).stopResolutions,
      ∀ b ∈ (runL steps (initLauncher port)).stopResolutions, a = b) := by
  obtain ⟨_, _, _, hB, hC⟩ := LInv_runL port steps
  refine ⟨hB, ?_⟩
  intro a ha b hb
  obtain ⟨_, _, hwa, hna⟩ := hC a ha
  obtain ⟨_, _, hwb, hnb⟩ := hC b hb
  have hwal : a.wallet = b.wallet := Option.some.inj (hwa.trans hwb.symm)
  have hnod : a.node = b.node := Option.some.inj (hna.trans hnb.symm)
  cases a
  cases b
  simp_all

open Launcher in
/-- Witness for C2: a run in which the wallet and node crash (triggering
two cross-stops) and two pending stop joins complete. -/
theorem launcher_exit_once_stop_values_equal_app :
    (runL [LStep.startL demoWalletCfg demoNodeCfg (Except.ok 11)
          (Except.ok 12),
        LStep.wExit (some 0) none, LStep.nExit (some 0) none,
        LStep.complete, LStep.complete]
      (initLauncher 8090)).exitEvents.length ≤ 1 ∧
    (⟨⟨demoWalletCfg.command, some 0, none, none⟩,
        ⟨demoNodeCfg.command, some 0, none, none⟩⟩ : ExitStatus) =
      ⟨⟨demoWalletCfg.command, some 0, none, none⟩,
        ⟨demoNodeCfg.command, some 0, none, none⟩⟩ := by
  refine ⟨(launcher_exit_once_stop_values_equal 8090
    [LStep.startL demoWalletCfg demoNodeCfg (Except.ok 11) (Except.ok 12),
      LStep.wExit (some 0) none, LStep.nExit (some 0) none,
      LStep.complete, LStep.complete]).1, ?_⟩
  exact (launcher_exit_once_stop_values_equal 8090
    [LStep.startL demoWalletCfg demoNodeCfg (Except.ok 11) (Except.ok 12),
      LStep.wExit (some 0) none, LStep.nExit (some 0) none,
      LStep.complete, LStep.complete]).2
    ⟨⟨demoWalletCfg.command, some 0, none, none⟩,
      ⟨demoNodeCfg.command, some 0, none, none⟩⟩ (by decide)
    ⟨⟨demoWalletCfg.command, some 0, none, none⟩,
      ⟨demoNodeCfg.command, some 0, none, none⟩⟩ (by decide)

/-- Helper: the launcher state right after `Launcher.start` on a fresh
launcher (node started first, then wallet, listeners registered). -/
theorem startCall_init (port : Nat) (wcfg ncfg : StartService)
    (wpid npid : Int) :
    Launcher.startCall wcfg ncfg (Except.ok wpid) (Except.ok npid)
        (Launcher.initLauncher port) =
      { apiPort := port
        startRegistered := true
        walletService :=
          { status := ServiceStatus.Started
            cfg := some wcfg
            proc := some ⟨wpid, wcfg.supportsCleanShutdown⟩
            events := [ServiceStatus.Started]
            logs := [Severity.info, Severity.debug]
            actions := [Action.spawn wcfg.command wcfg.args] }
        nodeService :=
          { status := ServiceStatus.Started
            cfg := some ncfg
            proc := some ⟨npid, ncfg.supportsCleanShutdown⟩
            events := [ServiceStatus.Started]
            logs := [Severity.info, Severity.debug]
            actions := [Action.spawn ncfg.command ncfg.args] } } := by
  simp [Launcher.startCall, Launcher.initLauncher, start_from_init]

open Launcher in
/-- C8: Launcher.start() races readiness against failure.  If the wallet
API port accepts a TCP connection while both services are at most Started,
the ready event is emitted and the start promise resolves with the V2Api
connection info; if the wallet (and consequently, through cross-stop, the
node) exits before readiness succeeds, the poller never emits ready and
the start promise rejects with the full LaunchExitStatus reflecting the
children's true exit statuses, delivered by the single exit event. -/
theorem launcher_start_readiness_race (port : Nat)
    (wcfg ncfg : StartService) (wpid npid : Int) (c nc : Option Int)
    (g ng : Option String) :
    ((runL [LStep.startL wcfg ncfg (Except.ok wpid) (Except.ok npid),
          LStep.ready] (initLauncher port)).readyEvents = 1 ∧
      (runL [LStep.startL wcfg ncfg (Except.ok wpid) (Except.ok npid),
          LStep.ready] (initLauncher port)).startOutcome =
        StartOutcome.resolved (v2BaseUrl port)) ∧
    ((runL [LStep.startL wcfg ncfg (Except.ok wpid) (Except.ok npid),
          LStep.wExit c g, LStep.nExit nc ng, LStep.complete, LStep.ready]
        (initLauncher port)).readyEvents = 0 ∧
      (runL [LStep.startL wcfg ncfg (Except.ok wpid) (Except.ok npid),
          LStep.wExit c g, LStep.nExit nc ng, LStep.complete, LStep.ready]
        (initLauncher port)).startOutcome =
        StartOutcome.rejected
          ⟨⟨wcfg.command, c, g, none⟩, ⟨ncfg.command, nc, ng, none⟩⟩ ∧
      (runL [LStep.startL wcfg ncfg (Except.ok wpid) (Except.ok npid),
          LStep.wExit c g, LStep.nExit nc ng, LStep.complete, LStep.ready]
        (initLauncher port)).exitEvents =
        [⟨⟨wcfg.command, c, g, none⟩, ⟨ncfg.command, nc, ng, none⟩⟩]) := by
  constructor
  · simp only [runL, List.foldl, applyLStep]
    rw [startCall_init]
    simp [pollReady, ServiceStatus.rank, v2BaseUrl]
  · simp only [runL, List.foldl, applyLStep]
    rw [startCall_init]
    simp [walletProcExit, nodeProcExit, serviceStoppedHandler, stopCall,
      stopComplete, emitExit, pollReady, Service.procExit, Service.onStopped,
      Service.setStatus, Service.stop, Service.waitForExit, Service.doStop,
      ServiceStatus.rank]

end CardanoLauncher
